import Mathlib

/-!
Verification of the lead-capture endpoint in `src/app.py`.

Python strings are modelled as `List Char` (sequences of code points);
environment variables and HTTP headers as `Option (List Char)`
(`none` = unset); raising Python functions return `Except (List Char) _`;
timestamps from `time.monotonic()` as rationals.  Every definition is a
direct translation of the corresponding Python function, noted in its
doc comment.
-/

deriving instance DecidableEq for Except

namespace RudysApp

/-- Convenience: the char list of a Lean string literal. -/
def strL (s : String) : List Char := s.data

/-- Python `str.isspace` for the ASCII range (`' '`, `\t`, `\n`, `\r`,
vertical tab, form feed); used by `str.strip()`. -/
def pyIsSpace (c : Char) : Bool :=
  c = ' ' ∨ c = '\t' ∨ c = '\n' ∨ c = '\r' ∨ c = '\x0b' ∨ c = '\x0c'

/-- Python `str.strip()`: drop whitespace from both ends. -/
def pyStrip (l : List Char) : List Char :=
  ((l.dropWhile pyIsSpace).reverse.dropWhile pyIsSpace).reverse

/-- Python `str.split(sep)` for a one-character separator: always returns a
non-empty list of (possibly empty) pieces. -/
def splitOnChar (sep : Char) : List Char → List (List Char)
  | [] => [[]]
  | c :: rest =>
    match splitOnChar sep rest with
    | [] => [[]]
    | h :: t => if c = sep then [] :: h :: t else (c :: h) :: t

/-- Python `str.replace(a, b)` where `a` and `b` are single characters. -/
def replaceChar (a b : Char) (l : List Char) : List Char :=
  l.map (fun c => if c = a then b else c)

/-- Python `str.replace(chr(13) ++ chr(10), chr(10))`: left-to-right
non-overlapping replacement of the two-character CRLF sequence by LF. -/
def collapseCRLF : List Char → List Char
  | '\r' :: '\n' :: rest => '\n' :: collapseCRLF rest
  | c :: rest => c :: collapseCRLF rest
  | [] => []

/-- `_clean_header_value(raw, limit=255)` from `src/app.py` (lines 34-41):
raise `ValueError` when `len(raw) > limit * 4`, else replace CR and LF by
spaces, strip, and truncate to `limit` characters. -/
def clean_header_value (raw : List Char) (limit : Nat := 255) :
    Except (List Char) (List Char) :=
  if limit * 4 < raw.length then .error (strL "field too long")
  else .ok ((pyStrip (replaceChar '\n' ' ' (replaceChar '\r' ' ' raw))).take limit)

/-- `_clean_message(raw, limit=5000)` from `src/app.py` (lines 44-48):
raise `ValueError` when `len(raw) > limit * 4`, else normalise CRLF and CR
to LF, strip, and truncate to `limit` characters. -/
def clean_message (raw : List Char) (limit : Nat := 5000) :
    Except (List Char) (List Char) :=
  if limit * 4 < raw.length then .error (strL "message too long")
  else .ok ((pyStrip (replaceChar '\r' '\n' (collapseCRLF raw))).take limit)

/-- Digit run of CPython `int(str)` after sign: at least one digit, with
single underscores allowed between digits. -/
def parseDigitsGo (acc : Nat) : List Char → Option Nat
  | [] => some acc
  | c :: rest =>
    if c.isDigit then parseDigitsGo (acc * 10 + (c.toNat - 48)) rest
    else if c = '_' then
      match rest with
      | d :: rest2 =>
        if d.isDigit then parseDigitsGo (acc * 10 + (d.toNat - 48)) rest2 else none
      | [] => none
    else none

/-- See `parseDigitsGo`; requires a leading digit. -/
def parseDigits : List Char → Option Nat
  | [] => none
  | c :: rest => if c.isDigit then parseDigitsGo (c.toNat - 48) rest else none

/-- CPython `int(str)` on ASCII input: strip whitespace, optional sign,
non-empty digit run; `none` models the raised `ValueError`. -/
def pyParseInt (l : List Char) : Option Int :=
  match pyStrip l with
  | '+' :: rest => (parseDigits rest).map (fun n => (n : Int))
  | '-' :: rest => (parseDigits rest).map (fun n => -(n : Int))
  | t => (parseDigits t).map (fun n => (n : Int))

/-- `_parse_addresses(raw)` from `src/app.py` (lines 51-54): `()` when the
input is `None` or empty, else split on commas, strip each entry and drop
the empty ones. -/
def parse_addresses (raw : Option (List Char)) : List (List Char) :=
  match raw with
  | none => []
  | some l =>
    if l.isEmpty then []
    else ((splitOnChar ',' l).map pyStrip).filter (fun a => ¬ a.isEmpty)

/-- `_env(name, default)` from `src/app.py` (lines 29-31): the variable's
value when set and non-empty, else the default. -/
def envGet (val dflt : Option (List Char)) : Option (List Char) :=
  match val with
  | some v => if v.isEmpty then dflt else some v
  | none => dflt

/-- The six environment variables read by `MailConfig.load`. -/
structure Env where
  smtpHost : Option (List Char)
  smtpPort : Option (List Char)
  smtpUser : Option (List Char)
  smtpPass : Option (List Char)
  mailTo : Option (List Char)
  mailFrom : Option (List Char)
deriving DecidableEq

/-- The `MailConfig` dataclass from `src/app.py` (lines 57-64). -/
structure MailConfig where
  host : List Char
  port : Int
  user : List Char
  password : List Char
  to_addrs : List (List Char)
  from_addr : List Char
deriving DecidableEq

/-- Python falsiness of an optional string: `None` or empty. -/
def optFalsy (o : Option (List Char)) : Prop := o = none ∨ o = some []

instance (o : Option (List Char)) : Decidable (optFalsy o) := by
  unfold optFalsy; infer_instance

/-- `MailConfig.load` from `src/app.py` (lines 66-91): read the six
settings with their defaults, return `none` when the truthiness check on
`(host and port_raw and user and password and to_addrs and from_addr)`
fails or the port does not parse as an integer. -/
def MailConfig.load (e : Env) : Option MailConfig :=
  let host := envGet e.smtpHost (some (strL "smtp.gmail.com"))
  let portRaw := envGet e.smtpPort (some (strL "587"))
  let user := envGet e.smtpUser none
  let password := envGet e.smtpPass none
  let toAddrs := parse_addresses (envGet e.mailTo none)
  let fromAddr := envGet e.mailFrom
    (some (match user with | some u => u | none => strL "no-reply@localhost"))
  if optFalsy host ∨ optFalsy portRaw ∨ optFalsy user ∨ optFalsy password ∨
      toAddrs.isEmpty ∨ optFalsy fromAddr then none
  else
    match pyParseInt (portRaw.getD []) with
    | none => none
    | some port =>
      some ⟨host.getD [], port, user.getD [], password.getD [], toAddrs,
        fromAddr.getD []⟩

/-! ### SMTP client lifecycle (`_smtp_client` / `send_email`, lines 107-144) -/

/-- Observable steps of one SMTP dispatch. -/
inductive SmtpEvent
  | connect
  | starttls
  | login
  | send
  | close
deriving DecidableEq

/-- Which of the SMTP operations succeed on this invocation; a `false`
models the corresponding `smtplib` call raising. -/
structure SmtpWorld where
  connectOk : Bool
  starttlsOk : Bool
  loginOk : Bool
  sendOk : Bool
deriving DecidableEq

/-- The dispatch part of `send_email` (lines 142-144) together with
`_smtp_client` (lines 107-114): the `SMTP`/`SMTP_SSL` constructor connects;
on a non-465 port `starttls()` is then called; `login()` follows; all three
run before the `with` block is entered, so a failure there propagates
without any close.  Only the `with _smtp_client(cfg) as server:` block
closes the connection on exit (`smtplib`'s `__exit__`), whether
`send_message` succeeded or raised.  Returns the event trace and whether an
exception propagated to the caller. -/
def smtpDispatch (port : Int) (w : SmtpWorld) : List SmtpEvent × Bool :=
  if ¬ w.connectOk then ([.connect], true)
  else
    let ev1 : List SmtpEvent := [.connect]
    if port ≠ 465 ∧ ¬ w.starttlsOk then (ev1 ++ [.starttls], true)
    else
      let ev2 := ev1 ++ (if port ≠ 465 then [SmtpEvent.starttls] else [])
      if ¬ w.loginOk then (ev2 ++ [.login], true)
      else (ev2 ++ [.login, .send, .close], ¬ w.sendOk)

/-- `send_email` (lines 117-144) as seen by `handle_send`: load the cached
config; when it is `None` return silently; otherwise compose the message
and dispatch it.  Result: (was an SMTP connection attempted, did an
exception propagate). -/
def send_email (e : Env) (w : SmtpWorld) : Bool × Bool :=
  match MailConfig.load e with
  | none => (false, false)
  | some cfg => (true, (smtpDispatch cfg.port w).2)

/-! ### Origin guard (`_same_origin`, lines 147-163) -/

/-- Scheme and network location produced by `urllib.parse.urlparse`. -/
structure UrlParts where
  scheme : List Char
  netloc : List Char
deriving DecidableEq

/-- Characters allowed after the first one in a URL scheme
(CPython `scheme_chars`). -/
def isSchemeChar (c : Char) : Bool :=
  c.isAlphanum ∨ c = '+' ∨ c = '-' ∨ c = '.'

/-- CPython `urlsplit` preprocessing: strip C0 controls and spaces from
both ends, then remove every tab, CR and LF. -/
def stripControl (l : List Char) : List Char :=
  (((l.dropWhile (fun c => c ≤ ' ')).reverse.dropWhile
      (fun c => c ≤ ' ')).reverse).filter
    (fun c => ¬ (c = '\t' ∨ c = '\r' ∨ c = '\n'))

/-- CPython `urlsplit` scheme detection: split at the first colon when the
part before it is a non-empty ASCII-alpha-led run of scheme characters, and
lowercase it; otherwise the scheme is empty and nothing is consumed. -/
def splitScheme (l : List Char) : List Char × List Char :=
  match l.dropWhile (fun c => c ≠ ':') with
  | ':' :: rest =>
    match l.takeWhile (fun c => c ≠ ':') with
    | [] => ([], l)
    | c0 :: cs =>
      if c0.isAlpha ∧ cs.all isSchemeChar then
        ((c0 :: cs).map Char.toLower, rest)
      else ([], l)
  | _ => ([], l)

/-- `urllib.parse.urlparse` restricted to the two fields `_same_origin`
reads (scheme, netloc), modelling CPython 3.11+: preprocessing, scheme
split, then a netloc delimited by the first of a slash, question mark or
number sign after a leading double slash.  `none` models the `ValueError`
CPython raises on an unmatched square bracket in the netloc. -/
def pyUrlparse (url : List Char) : Option UrlParts :=
  let u := stripControl url
  let sp := splitScheme u
  match sp.2 with
  | '/' :: '/' :: r =>
    let netloc := r.takeWhile (fun c => ¬ (c = '/' ∨ c = '?' ∨ c = '#'))
    if (netloc.contains '[' && ¬ netloc.contains ']') ∨
        (netloc.contains ']' && ¬ netloc.contains '[') then none
    else some ⟨sp.1, netloc⟩
  | _ => some ⟨sp.1, []⟩

/-- Python `str.rstrip(chr(47))`: drop all trailing slashes. -/
def rstripSlashes (l : List Char) : List Char :=
  (l.reverse.dropWhile (fun c => c = '/')).reverse

/-- The `header_url = origin or referer` selection of `_same_origin`
(line 154): the Origin header when present and non-empty, else Referer. -/
def headerChoice (origin referer : Option (List Char)) : Option (List Char) :=
  match origin with
  | some o => if o.isEmpty then referer else some o
  | none => referer

/-- `_same_origin` from `src/app.py` (lines 147-163): permissive when no
Origin/Referer header is supplied; otherwise true when the header URL
literally starts with the service's own URL (trailing slashes stripped) or
its parsed scheme and netloc are non-empty and their `scheme://netloc`
recombination equals that URL; false when `urlparse` raises. -/
def same_origin (origin referer : Option (List Char)) (hostUrl : List Char) :
    Bool :=
  let host := rstripSlashes hostUrl
  match headerChoice origin referer with
  | none => true
  | some u =>
    if u.isEmpty then true
    else
      match pyUrlparse u with
      | none => false
      | some p =>
        host.isPrefixOf u ||
          ((!p.scheme.isEmpty) && (!p.netloc.isEmpty) &&
            (p.scheme ++ strL "://" ++ p.netloc == host))

/-! ### Rate limiter (`_rate_limited`, lines 166-176) -/

/-- The `_rate_limits` dict: client id to deque of timestamps. -/
abbrev RateDict := List (List Char × List ℚ)

/-- Dictionary lookup. -/
def dictFind : RateDict → List Char → Option (List ℚ)
  | [], _ => none
  | (k, v) :: rest, ip => if k = ip then some v else dictFind rest ip

/-- Dictionary update (insert at the end when the key is new, as
`dict.setdefault` does). -/
def dictSet : RateDict → List Char → List ℚ → RateDict
  | [], ip, q => [(ip, q)]
  | (k, v) :: rest, ip, q =>
    if k = ip then (k, q) :: rest else (k, v) :: dictSet rest ip q

/-- `_rate_limited(ip)` from `src/app.py` (lines 166-176) acting on the
`_rate_limits` dict: `setdefault` the client's deque, pop entries older
than `now - window` from the front, then either reject (`True`, keeping the
pruned deque) or append `now` and accept (`False`).  Both branches leave
the (possibly newly inserted) pruned deque in the dict. -/
def rate_limited (window : ℚ) (maxHits : Nat) (now : ℚ) (ip : List Char)
    (d : RateDict) : Bool × RateDict :=
  let q := (dictFind d ip).getD []
  let q2 := q.dropWhile (fun t => decide (window < now - t))
  if maxHits ≤ q2.length then (true, dictSet d ip q2)
  else (false, dictSet d ip (q2 ++ [now]))

/-- A sequence of `_rate_limited` checks for one client id at the given
times. -/
def runRateChecks (window : ℚ) (maxHits : Nat) (ip : List Char) :
    List ℚ → RateDict → List Bool × RateDict
  | [], d => ([], d)
  | t :: ts, d =>
    let r := rate_limited window maxHits t ip d
    let rs := runRateChecks window maxHits ip ts r.2
    (r.1 :: rs.1, rs.2)

/-! ### Request pipeline (`handle_send`, lines 179-213) -/

/-- Client identity resolution (line 191): first comma-separated component
of `X-Forwarded-For`, defaulting to the remote address or `unknown`,
stripped. -/
def client_ip (xff remote : Option (List Char)) : List Char :=
  let base :=
    match xff with
    | some v => v
    | none =>
      match remote with
      | some r => if r.isEmpty then strL "unknown" else r
      | none => strL "unknown"
  pyStrip ((splitOnChar ',' base).headD [])

/-- The pipeline outcome, one per terminal branch of `handle_send`. -/
inductive Outcome
  | rejectedHoneypot
  | rejectedOrigin
  | rejectedRateLimit
  | rejectedValidation
  | deliveryFailed
  | accepted
deriving DecidableEq

/-- The external HTTP response produced by each branch. -/
inductive HttpResp
  | seeOther303Thanks
  | badRequest400
  | tooMany429
deriving DecidableEq

/-- What one `handle_send` invocation returns to the HTTP layer. -/
structure PipelineResult where
  outcome : Outcome
  response : HttpResp
  smtpAttempted : Bool
deriving DecidableEq

/-- The raw form fields and request metadata consumed by `handle_send`;
`request.form.get(name, chr(39) ++ chr(39))` makes missing fields empty. -/
structure HandleInput where
  company : List Char
  name : List Char
  email : List Char
  phone : List Char
  message : List Char
  origin : Option (List Char)
  referer : Option (List Char)
  hostUrl : List Char
  xff : Option (List Char)
  remoteAddr : Option (List Char)
  now : ℚ
  window : ℚ
  maxHits : Nat
deriving DecidableEq

/-- `handle_send` from `src/app.py` (lines 179-213): honeypot, origin,
rate-limit, validation, dispatch — in that order, each terminal on
rejection.  A `ValueError` escaping a sanitizer is returned as `.error`
(Python: an uncaught exception), paired with the rate-limit dict in the
state it had at that moment. -/
def handle_send (inp : HandleInput) (e : Env) (w : SmtpWorld) (d : RateDict) :
    Except (List Char) PipelineResult × RateDict :=
  match clean_header_value inp.company 255 with
  | .error err => (.error err, d)
  | .ok hp =>
    if ¬ hp.isEmpty then
      (.ok ⟨.rejectedHoneypot, .seeOther303Thanks, false⟩, d)
    else if ¬ same_origin inp.origin inp.referer inp.hostUrl then
      (.ok ⟨.rejectedOrigin, .badRequest400, false⟩, d)
    else
      let ip := client_ip inp.xff inp.remoteAddr
      let rl := rate_limited inp.window inp.maxHits inp.now ip d
      if rl.1 then (.ok ⟨.rejectedRateLimit, .tooMany429, false⟩, rl.2)
      else
        match clean_header_value inp.name 255 with
        | .error err => (.error err, rl.2)
        | .ok nm =>
          match clean_header_value inp.email 255 with
          | .error err => (.error err, rl.2)
          | .ok em =>
            match clean_header_value inp.phone 255 with
            | .error err => (.error err, rl.2)
            | .ok _ =>
              match clean_message inp.message 5000 with
              | .error err => (.error err, rl.2)
              | .ok ms =>
                if nm.isEmpty ∨ em.isEmpty ∨ ms.isEmpty then
                  (.ok ⟨.rejectedValidation, .badRequest400, false⟩, rl.2)
                else
                  let se := send_email e w
                  if se.2 then
                    (.ok ⟨.deliveryFailed, .seeOther303Thanks, se.1⟩, rl.2)
                  else (.ok ⟨.accepted, .seeOther303Thanks, se.1⟩, rl.2)

/-! ### Helper lemmas -/

/-- A member of a stripped list is a member of the original list. -/
theorem mem_pyStrip {c : Char} {l : List Char} (h : c ∈ pyStrip l) : c ∈ l := by
  unfold pyStrip at h
  rw [List.mem_reverse] at h
  have h2 := (List.dropWhile_sublist _).subset h
  rw [List.mem_reverse] at h2
  exact (List.dropWhile_sublist _).subset h2

/-- After replacing every `a` by `b ≠ a`, the character `a` is gone. -/
theorem not_mem_replaceChar {a b : Char} (l : List Char) (hne : b ≠ a) :
    a ∉ replaceChar a b l := by
  intro h
  unfold replaceChar at h
  rw [List.mem_map] at h
  obtain ⟨x, _, hx⟩ := h
  by_cases hxa : x = a
  · rw [if_pos hxa] at hx; exact hne hx
  · rw [if_neg hxa] at hx; exact hxa hx

/-- Replacing `a` by `b` introduces no character other than `b`. -/
theorem mem_of_mem_replaceChar {a b c : Char} {l : List Char} (hc : c ≠ b)
    (h : c ∈ replaceChar a b l) : c ∈ l := by
  unfold replaceChar at h
  rw [List.mem_map] at h
  obtain ⟨x, hxl, hx⟩ := h
  by_cases hxa : x = a
  · rw [if_pos hxa] at hx; exact absurd hx hc.symm
  · rw [if_neg hxa] at hx; rwa [hx] at hxl

/-! ### C7 -/

/-- C7: for every raw input that contains a carriage return or a line feed
and does not exceed the 4 × limit bound (under which `_clean_header_value`
raises instead), the returned string contains neither carriage return nor
line feed. -/
theorem clean_header_field_no_crlf (raw out : List Char) (limit : Nat)
    (_hcr : '\r' ∈ raw ∨ '\n' ∈ raw)
    (hok : clean_header_value raw limit = .ok out) :
    '\r' ∉ out ∧ '\n' ∉ out := by
  unfold clean_header_value at hok
  split at hok
  · exact absurd hok (by simp)
  · have hout : out = (pyStrip (replaceChar '\n' ' '
        (replaceChar '\r' ' ' raw))).take limit := by
      injection hok with h
      exact h.symm
    subst hout
    constructor <;> intro hmem
    · have h1 := mem_pyStrip (List.take_subset _ _ hmem)
      have h2 := mem_of_mem_replaceChar (by decide) h1
      exact not_mem_replaceChar raw (by decide) h2
    · have h1 := mem_pyStrip (List.take_subset _ _ hmem)
      exact not_mem_replaceChar _ (by decide) h1

/-- C7 witness. -/
theorem clean_header_field_no_crlf_witness :
    ('\r' ∈ strL "a\r\nb" ∨ '\n' ∈ strL "a\r\nb") ∧
    ('\r' ∉ strL "a  b" ∧ '\n' ∉ strL "a  b") :=
  ⟨by decide, clean_header_field_no_crlf (strL "a\r\nb") (strL "a  b") 255
    (by decide) (by decide)⟩

/-! ### C8 -/

/-- C8: whenever a sanitizer returns a value rather than failing, the
value's length is at most `limit`, for every `limit`. -/
theorem sanitized_length_le_limit (raw out : List Char) (limit : Nat) :
    (clean_header_value raw limit = .ok out → out.length ≤ limit) ∧
    (clean_message raw limit = .ok out → out.length ≤ limit) := by
  constructor
  · intro hok
    unfold clean_header_value at hok
    split at hok
    · exact absurd hok (by simp)
    · injection hok with h
      rw [← h, List.length_take]
      exact Nat.min_le_left _ _
  · intro hok
    unfold clean_message at hok
    split at hok
    · exact absurd hok (by simp)
    · injection hok with h
      rw [← h, List.length_take]
      exact Nat.min_le_left _ _

/-- C8 witness. -/
theorem sanitized_length_le_limit_witness : (strL "abc").length ≤ 3 :=
  (sanitized_length_le_limit (strL "abcdef") (strL "abc") 3).1 (by decide)

/-! ### C2 -/

/-- C2 is false of the code: `_smtp_client` runs the `SMTP` constructor
(which connects), `starttls()` and `login()` before `send_email` enters the
`with` block, so when STARTTLS or authentication fails after the connection
was made, no close happens on that exit path.  The trace below shows the
leak for a STARTTLS failure and for a login failure on port 587, and that
a `send_message` failure inside the `with` block does close. -/
theorem smtp_connection_leaks_before_with_block :
    ((smtpDispatch 587 ⟨true, false, true, true⟩).1.contains .connect = true ∧
      (smtpDispatch 587 ⟨true, false, true, true⟩).1.contains .close = false ∧
      (smtpDispatch 587 ⟨true, false, true, true⟩).2 = true) ∧
    ((smtpDispatch 587 ⟨true, true, false, true⟩).1.contains .connect = true ∧
      (smtpDispatch 587 ⟨true, true, false, true⟩).1.contains .close = false ∧
      (smtpDispatch 587 ⟨true, true, false, true⟩).2 = true) ∧
    ((smtpDispatch 587 ⟨true, true, true, false⟩).1.contains .close = true ∧
      (smtpDispatch 587 ⟨true, true, true, false⟩).2 = true) := by
  decide

/-! ### C5 -/

/-- C5: a non-empty honeypot field (after sanitization) short-circuits the
pipeline: outcome `rejectedHoneypot` with a 303 redirect to the thank-you
page, no SMTP attempt, and the rate-limit dict returned exactly as it came
in — for arbitrary Origin/Referer headers, client identity, environment and
SMTP world, showing that neither the origin check nor the rate limiter
runs. -/
theorem honeypot_short_circuits (inp : HandleInput) (e : Env) (w : SmtpWorld)
    (d : RateDict) (hp : List Char)
    (h1 : clean_header_value inp.company 255 = .ok hp) (h2 : hp ≠ []) :
    handle_send inp e w d =
      (.ok ⟨.rejectedHoneypot, .seeOther303Thanks, false⟩, d) := by
  unfold handle_send
  rw [h1]
  simp [h2]

/-- C5 witness. -/
theorem honeypot_short_circuits_witness :
    clean_header_value (strL "spam") 255 = .ok (strL "spam") ∧
    strL "spam" ≠ [] ∧
    handle_send
      ⟨strL "spam", strL "Bob", strL "b@c", [], strL "hi",
        some (strL "https://evil.com"), none, strL "https://example.com/",
        none, none, 0, 3600, 5⟩
      ⟨none, none, some (strL "u@x"), some (strL "pw"), some (strL "a@b"),
        none⟩
      ⟨true, true, true, true⟩ [] =
      (.ok ⟨.rejectedHoneypot, .seeOther303Thanks, false⟩, []) :=
  ⟨by decide, by decide,
    honeypot_short_circuits _ _ _ _ (strL "spam") (by decide) (by decide)⟩

/-! ### Pipeline reduction under passed checks -/

/-- When the honeypot is empty, the origin check passes and the rate
limiter accepts, `handle_send` reduces to the validation-and-dispatch tail,
always paired with the updated rate-limit dict. -/
theorem handle_send_checks_passed (inp : HandleInput) (e : Env)
    (w : SmtpWorld) (d : RateDict)
    (h1 : clean_header_value inp.company 255 = .ok [])
    (h2 : same_origin inp.origin inp.referer inp.hostUrl = true)
    (h3 : (rate_limited inp.window inp.maxHits inp.now
        (client_ip inp.xff inp.remoteAddr) d).1 = false) :
    handle_send inp e w d =
      ((match clean_header_value inp.name 255 with
        | .error err => .error err
        | .ok nm =>
          match clean_header_value inp.email 255 with
          | .error err => .error err
          | .ok em =>
            match clean_header_value inp.phone 255 with
            | .error err => .error err
            | .ok _ =>
              match clean_message inp.message 5000 with
              | .error err => .error err
              | .ok ms =>
                if nm.isEmpty ∨ em.isEmpty ∨ ms.isEmpty then
                  .ok ⟨.rejectedValidation, .badRequest400, false⟩
                else if (send_email e w).2 then
                  .ok ⟨.deliveryFailed, .seeOther303Thanks, (send_email e w).1⟩
                else .ok ⟨.accepted, .seeOther303Thanks, (send_email e w).1⟩),
       (rate_limited inp.window inp.maxHits inp.now
         (client_ip inp.xff inp.remoteAddr) d).2) := by
  unfold handle_send
  rw [h1]
  simp only [h2, h3, List.isEmpty_nil, Bool.not_true, Bool.false_eq_true,
    not_true, not_false_eq_true, if_false, if_true, ite_true, ite_false,
    Bool.true_eq_false]
  cases clean_header_value inp.name 255 with
  | error err => rfl
  | ok nm =>
    cases clean_header_value inp.email 255 with
    | error err => rfl
    | ok em =>
      cases clean_header_value inp.phone 255 with
      | error err => rfl
      | ok ph =>
        cases clean_message inp.message 5000 with
        | error err => rfl
        | ok ms =>
          by_cases hval : nm.isEmpty ∨ em.isEmpty ∨ ms.isEmpty
          · simp only [hval, if_true]
          · simp only [hval, if_false]
            by_cases hsend : (send_email e w).2 <;> simp [hsend]

/-- Looking up the key just written. -/
theorem dictFind_dictSet_self (d : RateDict) (ip : List Char) (q : List ℚ) :
    dictFind (dictSet d ip q) ip = some q := by
  induction d with
  | nil => simp [dictSet, dictFind]
  | cons kv rest ih =>
    obtain ⟨k, v⟩ := kv
    by_cases hk : k = ip
    · simp [dictSet, dictFind, hk]
    · simp [dictSet, dictFind, hk, ih]

/-! ### C4 -/

/-- C4: a submission that passes the honeypot, origin, rate-limit and
validation checks always yields a 303 redirect to the thank-you page,
whatever the environment and SMTP world — in particular in each of the
three dispatch cases: resolved config with successful SMTP send
(`accepted`), absent config (silent no-op, `accepted` with no SMTP
attempt), and resolved config whose dispatch raises (`deliveryFailed`). -/
theorem redirect_303_on_all_dispatch_cases (inp : HandleInput) (e : Env)
    (w : SmtpWorld) (d : RateDict) (nm em ph ms : List Char)
    (h1 : clean_header_value inp.company 255 = .ok [])
    (h2 : same_origin inp.origin inp.referer inp.hostUrl = true)
    (h3 : (rate_limited inp.window inp.maxHits inp.now
        (client_ip inp.xff inp.remoteAddr) d).1 = false)
    (h4 : clean_header_value inp.name 255 = .ok nm) (h5 : nm ≠ [])
    (h6 : clean_header_value inp.email 255 = .ok em) (h7 : em ≠ [])
    (h8 : clean_header_value inp.phone 255 = .ok ph)
    (h9 : clean_message inp.message 5000 = .ok ms) (h10 : ms ≠ []) :
    (∃ r, (handle_send inp e w d).1 = .ok r ∧
      r.response = .seeOther303Thanks) ∧
    (MailConfig.load e = none →
      (handle_send inp e w d).1 =
        .ok ⟨.accepted, .seeOther303Thanks, false⟩) ∧
    (∀ cfg, MailConfig.load e = some cfg → (smtpDispatch cfg.port w).2 = false →
      (handle_send inp e w d).1 =
        .ok ⟨.accepted, .seeOther303Thanks, true⟩) ∧
    (∀ cfg, MailConfig.load e = some cfg → (smtpDispatch cfg.port w).2 = true →
      (handle_send inp e w d).1 =
        .ok ⟨.deliveryFailed, .seeOther303Thanks, true⟩) := by
  rw [handle_send_checks_passed inp e w d h1 h2 h3]
  simp only [h4, h6, h8, h9]
  refine ⟨?_, ?_, ?_, ?_⟩
  · by_cases hs : (send_email e w).2
    · exact ⟨⟨.deliveryFailed, .seeOther303Thanks, (send_email e w).1⟩,
        by simp [h5, h7, h10, hs], rfl⟩
    · exact ⟨⟨.accepted, .seeOther303Thanks, (send_email e w).1⟩,
        by simp [h5, h7, h10, hs], rfl⟩
  · intro hnone
    have hse : send_email e w = (false, false) := by
      unfold send_email; rw [hnone]
    simp [h5, h7, h10, hse]
  · intro cfg hsome hdisp
    have hse : send_email e w = (true, (smtpDispatch cfg.port w).2) := by
      unfold send_email; rw [hsome]
    simp [h5, h7, h10, hse, hdisp]
  · intro cfg hsome hdisp
    have hse : send_email e w = (true, (smtpDispatch cfg.port w).2) := by
      unfold send_email; rw [hsome]
    simp [h5, h7, h10, hse, hdisp]

/-- C4 witness: a valid submission under a resolved config with a healthy
SMTP world redirects 303. -/
theorem redirect_303_on_all_dispatch_cases_witness :
    ∃ r, (handle_send
      ⟨[], strL "Bob", strL "b@c", [], strL "hi", none, none,
        strL "http://x/", none, none, 0, 3600, 5⟩
      ⟨none, none, some (strL "u@x"), some (strL "pw"), some (strL "a@b"),
        none⟩
      ⟨true, true, true, true⟩ []).1 = .ok r ∧
      r.response = .seeOther303Thanks :=
  (redirect_303_on_all_dispatch_cases _ _ _ _
    (strL "Bob") (strL "b@c") [] (strL "hi")
    (by decide) (by decide) (by decide) (by decide) (by decide) (by decide)
    (by decide) (by decide) (by decide) (by decide)).1

/-! ### C9 -/

/-- C9: once the honeypot, origin and rate-limit checks pass, the client's
timestamp has been appended to its rate-limit queue, and `handle_send`
returns that updated dict no matter how the rest of the pipeline ends —
including when field validation rejects the submission, a sanitizer raises,
or delivery fails — so repeated invalid submissions consume rate-limit
slots. -/
theorem rate_slot_consumed_before_validation (inp : HandleInput) (e : Env)
    (w : SmtpWorld) (d : RateDict)
    (h1 : clean_header_value inp.company 255 = .ok [])
    (h2 : same_origin inp.origin inp.referer inp.hostUrl = true)
    (h3 : (rate_limited inp.window inp.maxHits inp.now
        (client_ip inp.xff inp.remoteAddr) d).1 = false) :
    (handle_send inp e w d).2 =
      (rate_limited inp.window inp.maxHits inp.now
        (client_ip inp.xff inp.remoteAddr) d).2 ∧
    dictFind
      ((rate_limited inp.window inp.maxHits inp.now
        (client_ip inp.xff inp.remoteAddr) d).2)
      (client_ip inp.xff inp.remoteAddr) =
      some ((((dictFind d (client_ip inp.xff inp.remoteAddr)).getD
          []).dropWhile (fun t => decide (inp.window < inp.now - t))) ++
        [inp.now]) := by
  constructor
  · rw [handle_send_checks_passed inp e w d h1 h2 h3]
  · simp only [rate_limited] at h3 ⊢
    split at h3
    · simp at h3
    · rename_i hm
      rw [if_neg hm]
      exact dictFind_dictSet_self d _ _


/-- C9 witness: a submission with an empty name (which validation will
reject) still gets its timestamp recorded. -/
theorem rate_slot_consumed_before_validation_witness :
    (handle_send
      ⟨[], [], strL "b@c", [], strL "hi", none, none, strL "http://x/",
        none, none, 0, 3600, 5⟩
      ⟨none, none, none, none, none, none⟩ ⟨true, true, true, true⟩ []).2 =
      (rate_limited 3600 5 0 (client_ip none none) []).2 ∧
    dictFind ((rate_limited 3600 5 0 (client_ip none none) []).2)
      (client_ip none none) =
      some ((((dictFind ([] : RateDict) (client_ip none none)).getD
          []).dropWhile (fun t => decide ((3600 : ℚ) < 0 - t))) ++
        [(0 : ℚ)]) :=
  rate_slot_consumed_before_validation _ _ _ _
    (by decide) (by decide) (by decide)

/-! ### C10 -/

/-- `_clean_header_value` at its default limit raises on more than 1020
characters. -/
theorem clean_header_value_too_long (raw : List Char)
    (h : 1020 < raw.length) :
    clean_header_value raw 255 = .error (strL "field too long") := by
  unfold clean_header_value
  rw [if_pos (by omega : 255 * 4 < raw.length)]

/-- `_clean_message` at its default limit raises on more than 20000
characters. -/
theorem clean_message_too_long (raw : List Char) (h : 20000 < raw.length) :
    clean_message raw 5000 = .error (strL "message too long") := by
  unfold clean_message
  rw [if_pos (by omega : 5000 * 4 < raw.length)]

/-- C10: a form field longer than 4 × its sanitizer's limit (1020 for
company/name/email/phone, 20000 for message) makes the `ValueError` escape
`handle_send` uncaught (`.error`, never the 400 validation response).  For
the honeypot field this happens before the honeypot decision: the first
conjunct holds for every company value of that length, filled or not.  The
remaining fields produce the uncaught error once the earlier checks have
passed. -/
theorem oversized_field_error_uncaught (inp : HandleInput) (e : Env)
    (w : SmtpWorld) (d : RateDict) :
    (1020 < inp.company.length →
      handle_send inp e w d = (.error (strL "field too long"), d)) ∧
    (clean_header_value inp.company 255 = .ok [] →
      same_origin inp.origin inp.referer inp.hostUrl = true →
      (rate_limited inp.window inp.maxHits inp.now
        (client_ip inp.xff inp.remoteAddr) d).1 = false →
      ((1020 < inp.name.length →
        handle_send inp e w d = (.error (strL "field too long"),
          (rate_limited inp.window inp.maxHits inp.now
            (client_ip inp.xff inp.remoteAddr) d).2)) ∧
      (∀ nm, clean_header_value inp.name 255 = .ok nm →
        1020 < inp.email.length →
        handle_send inp e w d = (.error (strL "field too long"),
          (rate_limited inp.window inp.maxHits inp.now
            (client_ip inp.xff inp.remoteAddr) d).2)) ∧
      (∀ nm em, clean_header_value inp.name 255 = .ok nm →
        clean_header_value inp.email 255 = .ok em →
        1020 < inp.phone.length →
        handle_send inp e w d = (.error (strL "field too long"),
          (rate_limited inp.window inp.maxHits inp.now
            (client_ip inp.xff inp.remoteAddr) d).2)) ∧
      (∀ nm em ph, clean_header_value inp.name 255 = .ok nm →
        clean_header_value inp.email 255 = .ok em →
        clean_header_value inp.phone 255 = .ok ph →
        20000 < inp.message.length →
        handle_send inp e w d = (.error (strL "message too long"),
          (rate_limited inp.window inp.maxHits inp.now
            (client_ip inp.xff inp.remoteAddr) d).2)))) := by
  constructor
  · intro hlen
    unfold handle_send
    rw [clean_header_value_too_long inp.company hlen]
  · intro h1 h2 h3
    refine ⟨?_, ?_, ?_, ?_⟩
    · intro hlen
      rw [handle_send_checks_passed inp e w d h1 h2 h3,
        clean_header_value_too_long inp.name hlen]
    · intro nm h4 hlen
      rw [handle_send_checks_passed inp e w d h1 h2 h3]
      simp only [h4]
      rw [clean_header_value_too_long inp.email hlen]
    · intro nm em h4 h6 hlen
      rw [handle_send_checks_passed inp e w d h1 h2 h3]
      simp only [h4, h6]
      rw [clean_header_value_too_long inp.phone hlen]
    · intro nm em ph h4 h6 h8 hlen
      rw [handle_send_checks_passed inp e w d h1 h2 h3]
      simp only [h4, h6, h8]
      rw [clean_message_too_long inp.message hlen]

/-- C10 witness: a 1021-character honeypot field escapes as an uncaught
error even though its non-empty content would otherwise trip the
honeypot. -/
theorem oversized_field_error_uncaught_witness :
    handle_send
      ⟨List.replicate 1021 'a', strL "Bob", strL "b@c", [], strL "hi",
        none, none, strL "http://x/", none, none, 0, 3600, 5⟩
      ⟨none, none, none, none, none, none⟩ ⟨true, true, true, true⟩ [] =
      (.error (strL "field too long"), []) :=
  (oversized_field_error_uncaught _ _ _ _).1
    (by rw [List.length_replicate]; omega)

/-! ### C6 -/

/-- `_env` of an unset variable yields the default. -/
theorem envGet_none_left (d : Option (List Char)) : envGet none d = d := rfl

/-- `_env` with no default never returns an empty string. -/
theorem envGet_none_ne_nil {x : Option (List Char)} {v : List Char}
    (h : envGet x none = some v) : v ≠ [] := by
  cases x with
  | none => simp [envGet] at h
  | some l =>
    simp only [envGet] at h
    by_cases hl : l.isEmpty
    · rw [if_pos hl] at h
      exact absurd h (by simp)
    · rw [if_neg hl] at h
      injection h with h
      subst h
      simpa using hl

/-- `_env` with a non-empty default is never falsy. -/
theorem optFalsy_envGet_default {x : Option (List Char)} {dflt : List Char}
    (hd : dflt ≠ []) : ¬ optFalsy (envGet x (some dflt)) := by
  cases x with
  | none => simp [envGet, optFalsy, hd]
  | some l =>
    simp only [envGet, optFalsy]
    by_cases hl : l.isEmpty
    · rw [if_pos hl]
      simp [hd]
    · rw [if_neg hl]
      simp only [List.isEmpty_eq_true] at hl
      simp [hl]

/-- Falsiness of a present optional value is emptiness. -/
theorem optFalsy_some {v : List Char} : optFalsy (some v) ↔ v = [] := by
  unfold optFalsy
  simp

/-- C6: `MailConfig.load` returns absent exactly when the SMTP user or
password is unset/empty, the recipient list is empty after trimming and
dropping empty entries, or the effective port value does not parse as an
integer — host, port and from-address can never cause absence thanks to
their non-empty defaults.  And when the required values are present while
the optional ones are unset, the config carries host `smtp.gmail.com`,
port 587 and a from-address equal to the user. -/
theorem mailconfig_absent_iff (e : Env) :
    (MailConfig.load e = none ↔
      envGet e.smtpUser none = none ∨ envGet e.smtpPass none = none ∨
      parse_addresses (envGet e.mailTo none) = [] ∨
      pyParseInt ((envGet e.smtpPort (some (strL "587"))).getD []) = none) ∧
    (e.smtpHost = none → e.smtpPort = none → e.mailFrom = none →
      ∀ u p, envGet e.smtpUser none = some u → envGet e.smtpPass none = some p →
      parse_addresses (envGet e.mailTo none) ≠ [] →
      MailConfig.load e = some ⟨strL "smtp.gmail.com", 587, u, p,
        parse_addresses (envGet e.mailTo none), u⟩) := by
  have hhost : ¬ optFalsy (envGet e.smtpHost (some (strL "smtp.gmail.com"))) :=
    optFalsy_envGet_default (by decide)
  have hport : ¬ optFalsy (envGet e.smtpPort (some (strL "587"))) :=
    optFalsy_envGet_default (by decide)
  constructor
  · have hfrom : ¬ optFalsy (envGet e.mailFrom (some
        (match envGet e.smtpUser none with
          | some u => u
          | none => strL "no-reply@localhost"))) := by
      cases hu : envGet e.smtpUser none with
      | none => exact optFalsy_envGet_default (by decide)
      | some u => exact optFalsy_envGet_default (envGet_none_ne_nil hu)
    simp only [MailConfig.load]
    split
    case isTrue h =>
      refine iff_of_true rfl ?_
      rcases h with h | h | h | h | h | h
      · exact absurd h hhost
      · exact absurd h hport
      · left
        rcases h with h | h
        · exact h
        · exact absurd rfl (envGet_none_ne_nil h)
      · right; left
        rcases h with h | h
        · exact h
        · exact absurd rfl (envGet_none_ne_nil h)
      · right; right; left
        simpa using h
      · exact absurd h hfrom
    case isFalse h =>
      push_neg at h
      obtain ⟨-, -, hcU, hcP, hcT, -⟩ := h
      cases hpp : pyParseInt ((envGet e.smtpPort (some (strL "587"))).getD [])
        with
      | none =>
        exact iff_of_true rfl (Or.inr (Or.inr (Or.inr rfl)))
      | some port =>
        refine iff_of_false (by simp) ?_
        rintro (hx | hx | hx | hx)
        · exact hcU (Or.inl hx)
        · exact hcP (Or.inl hx)
        · exact hcT (by simp [hx])
        · exact absurd hx (by simp)
  · intro hh hp hf u p hu hpw hto
    have hune : u ≠ [] := envGet_none_ne_nil hu
    have hpne : p ≠ [] := envGet_none_ne_nil hpw
    simp only [MailConfig.load, hh, hp, hf, hu, hpw, envGet_none_left]
    rw [if_neg]
    · have hparse : pyParseInt ((some (strL "587")).getD []) =
          some (587 : Int) := by decide
      rw [hparse]
      rfl
    · rintro (hx | hx | hx | hx | hx | hx)
      · exact absurd (optFalsy_some.mp hx) (by decide)
      · exact absurd (optFalsy_some.mp hx) (by decide)
      · exact hune (optFalsy_some.mp hx)
      · exact hpne (optFalsy_some.mp hx)
      · exact hto (by simpa using hx)
      · exact hune (optFalsy_some.mp hx)

/-- C6 witness: required values set, optional ones unset. -/
theorem mailconfig_absent_iff_witness :
    MailConfig.load
      ⟨none, none, some (strL "u@x"), some (strL "pw"),
        some (strL "a@b, c@d"), none⟩ =
      some ⟨strL "smtp.gmail.com", 587, strL "u@x", strL "pw",
        parse_addresses (envGet (some (strL "a@b, c@d")) none),
        strL "u@x"⟩ :=
  (mailconfig_absent_iff _).2 rfl rfl rfl (strL "u@x") (strL "pw")
    (by decide) (by decide) (by decide)

/-! ### C3 -/

/-- Running checks over a concatenation composes. -/
theorem runRateChecks_append (w : ℚ) (N : Nat) (ip : List Char)
    (ts1 ts2 : List ℚ) (d : RateDict) :
    runRateChecks w N ip (ts1 ++ ts2) d =
      ((runRateChecks w N ip ts1 d).1 ++
        (runRateChecks w N ip ts2 (runRateChecks w N ip ts1 d).2).1,
       (runRateChecks w N ip ts2 (runRateChecks w N ip ts1 d).2).2) := by
  induction ts1 generalizing d with
  | nil => simp [runRateChecks]
  | cons t ts ih => simp [runRateChecks, ih]

/-- While the client's queue starts with `t₀`, holds fewer entries than the
budget leaves room for, and every further check happens within `window` of
`t₀`, every check is allowed and appends its timestamp. -/
theorem runRateChecks_all_allowed (w t₀ : ℚ) (ip : List Char) :
    ∀ (ts qtail : List ℚ) (d : RateDict) (N : Nat),
    dictFind d ip = some (t₀ :: qtail) →
    (t₀ :: qtail).length + ts.length ≤ N →
    (∀ t ∈ ts, t - t₀ ≤ w) →
    ∃ d', runRateChecks w N ip ts d = (List.replicate ts.length false, d') ∧
      dictFind d' ip = some ((t₀ :: qtail) ++ ts) := by
  intro ts
  induction ts with
  | nil =>
    intro qtail d N hfind hlen hwin
    exact ⟨d, rfl, by simpa using hfind⟩
  | cons t ts ih =>
    intro qtail d N hfind hlen hwin
    have hq : (dictFind d ip).getD [] = t₀ :: qtail := by rw [hfind]; rfl
    have hdrop : (t₀ :: qtail).dropWhile (fun x => decide (w < t - x)) =
        t₀ :: qtail := by
      rw [List.dropWhile_cons_of_neg]
      simp only [decide_eq_true_eq, not_lt]
      exact hwin t (List.mem_cons_self t ts)
    have hstep : rate_limited w N t ip d =
        (false, dictSet d ip ((t₀ :: qtail) ++ [t])) := by
      simp only [rate_limited, hq, hdrop]
      rw [if_neg]
      simp only [List.length_cons] at hlen ⊢
      omega
    obtain ⟨d', hrun, hfind'⟩ := ih (qtail ++ [t])
      (dictSet d ip ((t₀ :: qtail) ++ [t])) N
      (by simpa using dictFind_dictSet_self d ip ((t₀ :: qtail) ++ [t]))
      (by simp only [List.length_cons, List.length_append,
            List.length_nil] at hlen ⊢
          omega)
      (fun x hx => hwin x (List.mem_cons_of_mem t hx))
    refine ⟨d', ?_, ?_⟩
    · simp only [runRateChecks, hstep, hrun, List.length_cons,
        List.replicate_succ]
    · rw [hfind']
      simp

/-- C3: starting from a fresh client queue, a sequence of `N + 1` checks
whose times all lie within `window` of the first has its first `N` checks
allowed — each appending its timestamp — and its `(N + 1)`-th rejected,
appending nothing; a later check made after the window has passed every
recorded timestamp is allowed again.  (`rate_limited` returns `true` for
rejected, mirroring `_rate_limited`.) -/
theorem rate_limiter_sliding_window (N : Nat) (w t₀ tN tLater : ℚ)
    (mid : List ℚ) (ip : List Char) (d : RateDict)
    (hfresh : (dictFind d ip).getD [] = [])
    (hN : mid.length + 1 = N)
    (hwin : ∀ t ∈ t₀ :: (mid ++ [tN]), t - t₀ ≤ w)
    (hlater : ∀ t ∈ t₀ :: mid, w < tLater - t) :
    ∃ d', runRateChecks w N ip (t₀ :: (mid ++ [tN])) d =
        (List.replicate N false ++ [true], d') ∧
      dictFind d' ip = some (t₀ :: mid) ∧
      (rate_limited w N tLater ip d').1 = false := by
  have hstep0 : rate_limited w N t₀ ip d = (false, dictSet d ip [t₀]) := by
    simp only [rate_limited, hfresh, List.dropWhile_nil]
    rw [if_neg]
    · simp
    · simp only [List.length_nil]
      omega
  obtain ⟨d1, hrunMid, hfind1⟩ := runRateChecks_all_allowed w t₀ ip mid []
    (dictSet d ip [t₀]) N (dictFind_dictSet_self d ip [t₀])
    (by simp only [List.length_cons, List.length_nil]; omega)
    (fun t ht => hwin t (by simp [ht]))
  have hfind1s : dictFind d1 ip = some (t₀ :: mid) := by
    rw [hfind1]
    simp
  have hqN : (dictFind d1 ip).getD [] = t₀ :: mid := by rw [hfind1s]; rfl
  have hdropN : (t₀ :: mid).dropWhile (fun x => decide (w < tN - x)) =
      t₀ :: mid := by
    rw [List.dropWhile_cons_of_neg]
    simp only [decide_eq_true_eq, not_lt]
    exact hwin tN (by simp)
  have hstepN : rate_limited w N tN ip d1 =
      (true, dictSet d1 ip (t₀ :: mid)) := by
    simp only [rate_limited, hqN, hdropN]
    rw [if_pos]
    simp only [List.length_cons]
    omega
  refine ⟨dictSet d1 ip (t₀ :: mid), ?_, ?_, ?_⟩
  · have : runRateChecks w N ip (t₀ :: (mid ++ [tN])) d =
        ((rate_limited w N t₀ ip d).1 ::
          (runRateChecks w N ip (mid ++ [tN])
            (rate_limited w N t₀ ip d).2).1,
         (runRateChecks w N ip (mid ++ [tN])
            (rate_limited w N t₀ ip d).2).2) := rfl
    rw [this, hstep0, runRateChecks_append, hrunMid]
    simp only [runRateChecks, hstepN]
    rw [← hN]
    simp [List.replicate_succ]
  · exact dictFind_dictSet_self d1 ip (t₀ :: mid)
  · have hqL : (dictFind (dictSet d1 ip (t₀ :: mid)) ip).getD [] =
        t₀ :: mid := by
      rw [dictFind_dictSet_self]
      rfl
    have hdropL : (t₀ :: mid).dropWhile
        (fun x => decide (w < tLater - x)) = [] := by
      rw [List.dropWhile_eq_nil_iff]
      intro x hx
      simpa using hlater x hx
    simp only [rate_limited, hqL, hdropL]
    rw [if_neg]
    simp only [List.length_nil]
    omega

/-- C3 witness: `max_count = 2`, checks at times 0, 1, 2 within a window of
10, then a further check at time 20. -/
theorem rate_limiter_sliding_window_witness :
    ∃ d', runRateChecks 10 2 (strL "1.2.3.4") ((0 : ℚ) :: ([1] ++ [2])) [] =
        (List.replicate 2 false ++ [true], d') ∧
      dictFind d' (strL "1.2.3.4") = some ((0 : ℚ) :: [1]) ∧
      (rate_limited 10 2 20 (strL "1.2.3.4") d').1 = false :=
  rate_limiter_sliding_window 2 10 0 2 20 [1] (strL "1.2.3.4") []
    (by decide) (by decide)
    (by intro t ht; fin_cases ht <;> norm_num)
    (by intro t ht; fin_cases ht <;> norm_num)

/-! ### C1 -/

/-- `Char.ofNat` of a scalar below the surrogate range decodes back. -/
theorem char_toNat_ofNat_valid (m : Nat) (hm : m < 55296) :
    (Char.ofNat m).toNat = m := by
  rw [Char.ofNat, dif_pos (Or.inl hm)]
  rfl

/-- Lowercasing never turns a non-colon character into a colon. -/
theorem toLower_ne_colon {c : Char} (h : c ≠ ':') : c.toLower ≠ ':' := by
  simp only [Char.toLower]
  split
  · rename_i hrange
    intro heq
    have h58 : (Char.ofNat (c.toNat + 32)).toNat = (':' : Char).toNat :=
      congrArg Char.toNat heq
    rw [char_toNat_ofNat_valid _ (by omega)] at h58
    rw [show ((':' : Char).toNat) = 58 from rfl] at h58
    omega
  · exact h

/-- The scheme produced by `splitScheme` never contains a colon. -/
theorem splitScheme_no_colon {l sch rest : List Char}
    (h : splitScheme l = (sch, rest)) : ∀ c ∈ sch, c ≠ ':' := by
  unfold splitScheme at h
  split at h
  · split at h
    · injection h with h1 h2
      subst h1
      intro c hc
      exact absurd hc (List.not_mem_nil c)
    · rename_i heqTake
      split at h
      · injection h with h1 h2
        subst h1
        intro c hc
        rw [List.mem_map] at hc
        obtain ⟨x, hx, hcx⟩ := hc
        rw [← heqTake] at hx
        have hxne : x ≠ ':' := by
          have := List.mem_takeWhile_imp hx
          simpa using this
        rw [← hcx]
        exact toLower_ne_colon hxne
      · injection h with h1 h2
        subst h1
        intro c hc
        exact absurd hc (List.not_mem_nil c)
  · injection h with h1 h2
    subst h1
    intro c hc
    exact absurd hc (List.not_mem_nil c)

/-- The first component of `splitScheme` never contains a colon. -/
theorem splitScheme_fst_no_colon (l : List Char) :
    ∀ c ∈ (splitScheme l).1, c ≠ ':' :=
  splitScheme_no_colon rfl

/-- The scheme produced by `pyUrlparse` never contains a colon. -/
theorem pyUrlparse_scheme_no_colon {u : List Char} {p : UrlParts}
    (h : pyUrlparse u = some p) : ∀ c ∈ p.scheme, c ≠ ':' := by
  simp only [pyUrlparse] at h
  split at h
  · split at h
    · exact absurd h (by simp)
    · injection h with h
      subst h
      exact splitScheme_fst_no_colon _
  · injection h with h
    subst h
    exact splitScheme_fst_no_colon _

/-- Concatenations around a colon separator are injective when neither
left part contains a colon. -/
theorem append_colon_inj {a b r1 r2 : List Char}
    (ha : ∀ c ∈ a, c ≠ ':') (hb : ∀ c ∈ b, c ≠ ':')
    (h : a ++ ':' :: r1 = b ++ ':' :: r2) : a = b ∧ r1 = r2 := by
  induction a generalizing b with
  | nil =>
    cases b with
    | nil => simpa using h
    | cons c cs =>
      rw [List.nil_append, List.cons_append] at h
      injection h with h1 h2
      exact absurd h1.symm (hb c (List.mem_cons_self c cs))
  | cons c cs ih =>
    cases b with
    | nil =>
      rw [List.nil_append, List.cons_append] at h
      injection h with h1 h2
      exact absurd h1 (ha c (List.mem_cons_self c cs))
    | cons c2 cs2 =>
      rw [List.cons_append, List.cons_append] at h
      injection h with h1 h2
      obtain ⟨hcs, hr⟩ := ih (fun x hx => ha x (List.mem_cons_of_mem c hx))
        (fun x hx => hb x (List.mem_cons_of_mem c2 hx)) h2
      exact ⟨by rw [h1, hcs], hr⟩

/-- Stripping the single trailing slash of a canonical host URL. -/
theorem rstripSlashes_canonical (s n : List Char) (hn : n ≠ [])
    (hnc : ∀ c ∈ n, c ≠ '/') :
    rstripSlashes (s ++ strL "://" ++ n ++ [ '/' ]) = s ++ strL "://" ++ n := by
  obtain ⟨c, t, hct⟩ := List.exists_cons_of_ne_nil
    (fun hrev => hn (List.reverse_eq_nil_iff.mp hrev))
  have hcmem : c ∈ n := by
    rw [← List.mem_reverse, hct]
    exact List.mem_cons_self c t
  have hc : c ≠ '/' := hnc c hcmem
  unfold rstripSlashes
  rw [List.reverse_append (s ++ strL "://" ++ n) [ '/' ]]
  rw [show ([ '/' ] : List Char).reverse = [ '/' ] from rfl]
  rw [List.cons_append, List.nil_append, List.dropWhile_cons_of_pos (by simp)]
  rw [List.reverse_append (s ++ strL "://") n, hct, List.cons_append,
    List.dropWhile_cons_of_neg (by simp [hc]), ← List.cons_append, ← hct,
    ← List.reverse_append, List.reverse_reverse]

/-- A host URL decomposed as scheme `s` and netloc `n`: the scheme is a
letter followed by scheme characters, and the netloc is non-empty and
slash-free (as every host and port is). -/
def WellFormedHost (s n : List Char) : Prop :=
  (∃ c cs, s = c :: cs ∧ c.isAlpha = true ∧ cs.all isSchemeChar = true) ∧
  n ≠ [] ∧ ∀ c ∈ n, c ≠ '/'

/-- Modelled from the spec (C1, claim wording): takes the Origin header if
present else the Referer; absent or empty → true; otherwise true iff the
URL's parsed scheme and host both equal the service URL's parsed scheme and
host; a URL on which parsing raises → false. -/
def same_origin_spec_claim (origin referer : Option (List Char))
    (hostUrl : List Char) : Bool :=
  match headerChoice origin referer with
  | none => true
  | some u =>
    if u.isEmpty then true
    else
      match pyUrlparse u, pyUrlparse (rstripSlashes hostUrl) with
      | some p, some q => p.scheme == q.scheme && p.netloc == q.netloc
      | _, _ => false

/-- Modelled from the spec, amended as the counterexample forces: the guard
also returns true when the header URL literally starts with the service's
own URL, which admits URLs whose host merely extends the service's host. -/
def same_origin_spec_amended (origin referer : Option (List Char))
    (s n : List Char) : Bool :=
  match headerChoice origin referer with
  | none => true
  | some u =>
    if u.isEmpty then true
    else
      match pyUrlparse u with
      | none => false
      | some p =>
        (s ++ strL "://" ++ n).isPrefixOf u ||
          (p.scheme == s && p.netloc == n)

/-- C1 counterexample: the claim says the guard returns true only on an
exact scheme+host match, but `_same_origin` accepts
`https://example.com.evil.com` against service URL `https://example.com/`
through its literal-prefix test, although the two hosts differ. -/
theorem same_origin_prefix_counterexample :
    same_origin (some (strL "https://example.com.evil.com")) none
      (strL "https://example.com/") = true ∧
    same_origin_spec_claim (some (strL "https://example.com.evil.com")) none
      (strL "https://example.com/") = false := by
  decide

/-- C1 amended: for every request against a well-formed service URL
`s://n/`, the guard returns true iff no non-empty Origin/Referer header was
supplied, or the chosen header URL literally starts with `s://n`, or it
parses and its scheme and netloc equal `s` and `n`; a URL on which parsing
raises yields false. -/
theorem same_origin_amended (origin referer : Option (List Char))
    (s n : List Char) (hw : WellFormedHost s n) :
    same_origin origin referer (s ++ strL "://" ++ n ++ [ '/' ]) =
      same_origin_spec_amended origin referer s n := by
  obtain ⟨⟨c0, cs, hs_eq, halpha, hall⟩, hn, hnc⟩ := hw
  have hs_ne : s ≠ [] := by rw [hs_eq]; simp
  have hs_colon : ∀ x ∈ s, x ≠ ':' := by
    rw [hs_eq]
    intro x hx
    rcases List.mem_cons.mp hx with hx | hx
    · subst hx
      intro heq
      rw [heq] at halpha
      exact absurd halpha (by decide)
    · have hsc := (List.all_eq_true.mp hall) x hx
      intro heq
      rw [heq] at hsc
      exact absurd hsc (by decide)
  have hhost : rstripSlashes (s ++ strL "://" ++ n ++ [ '/' ]) =
      s ++ strL "://" ++ n := rstripSlashes_canonical s n hn hnc
  simp only [same_origin, same_origin_spec_amended, hhost]
  cases headerChoice origin referer with
  | none => rfl
  | some u =>
    simp only []
    by_cases hu : u.isEmpty
    · simp [hu]
    · rw [if_neg hu, if_neg hu]
      cases hp : pyUrlparse u with
      | none => rfl
      | some p =>
        simp only []
        have hps : ∀ x ∈ p.scheme, x ≠ ':' := pyUrlparse_scheme_no_colon hp
        congr 1
        rw [Bool.eq_iff_iff]
        simp only [Bool.and_eq_true, Bool.not_eq_true', List.isEmpty_eq_false,
          beq_iff_eq]
        constructor
        · rintro ⟨⟨h1, h2⟩, h3⟩
          have h3x : p.scheme ++ ':' :: '/' :: '/' :: p.netloc =
              s ++ ':' :: '/' :: '/' :: n := by
            rw [show strL "://" = [':', '/', '/'] from rfl] at h3
            simpa [List.append_assoc] using h3
          obtain ⟨hsch, hrest⟩ := append_colon_inj hps hs_colon h3x
          simp only [List.cons.injEq, true_and] at hrest
          exact ⟨hsch, hrest⟩
        · rintro ⟨h1, h2⟩
          subst h1
          subst h2
          exact ⟨⟨hs_ne, hn⟩, rfl⟩

/-- C1 amended witness: a same-site URL with a path. -/
theorem same_origin_amended_witness :
    same_origin (some (strL "https://example.com/path")) none
      (strL "https" ++ strL "://" ++ strL "example.com" ++ [ '/' ]) =
      same_origin_spec_amended (some (strL "https://example.com/path")) none
        (strL "https") (strL "example.com") :=
  same_origin_amended _ _ _ _
    ⟨⟨'h', strL "ttps", rfl, by decide, by decide⟩, by decide, by decide⟩

end RudysApp
